import Mathlib

/-!
Shallow embedding of the jdocgen symbol-resolution and generic-instantiation
core (packages models/utils, parser, generator, across the shipped
revisions).  Go strings are modelled as lists of characters (GoStr); Go maps
as association lists with first-match lookup and overwrite insertion.  All
claim-relevant inputs are ASCII, so ASCII case folding and ASCII whitespace
stand in for the unicode versions in Go, and byte indices coincide with character
indices.
-/

abbrev GoStr : Type := List Char

/-- ASCII whitespace test used by the embedded strings.TrimSpace / strings.Fields. -/
def isSpaceChar (c : Char) : Bool :=
  c == ' ' || c == '\t' || c == '\n' || c == '\r'

def trimLeft (s : GoStr) : GoStr := s.dropWhile isSpaceChar

def trimRight (s : GoStr) : GoStr := (s.reverse.dropWhile isSpaceChar).reverse

/-- strings.TrimSpace (ASCII fragment). -/
def trimSpace (s : GoStr) : GoStr := trimLeft (trimRight s)

/-- strings.HasPrefix. -/
def startsWithStr (p s : GoStr) : Bool := List.isPrefixOf p s

/-- strings.TrimPrefix. -/
def trimPrefixStr (s p : GoStr) : GoStr :=
  if List.isPrefixOf p s then s.drop p.length else s

/-- strings.TrimSuffix. -/
def trimSuffixStr (s suf : GoStr) : GoStr :=
  if List.isSuffixOf suf s then s.take (s.length - suf.length) else s

/-- strings.Trim with a one-character cutset (used to strip the quotes of
an imported path literal). -/
def trimCharBoth (c : Char) (s : GoStr) : GoStr :=
  ((s.dropWhile (fun x => x == c)).reverse.dropWhile (fun x => x == c)).reverse

/-- strings.Contains with a one-character needle. -/
def containsChar (s : GoStr) (c : Char) : Bool := s.any (fun x => x == c)

def splitOnAux (sep : Char) : List Char → List Char → List GoStr
  | [], cur => [cur.reverse]
  | c :: rest, cur =>
    if c == sep then cur.reverse :: splitOnAux sep rest []
    else splitOnAux sep rest (c :: cur)

/-- strings.Split with a one-character separator. -/
def splitOnChar (sep : Char) (s : GoStr) : List GoStr := splitOnAux sep s []

def fieldsAux : List Char → List Char → List GoStr
  | [], cur => if cur.isEmpty then [] else [cur.reverse]
  | c :: rest, cur =>
    if isSpaceChar c then
      if cur.isEmpty then fieldsAux rest [] else cur.reverse :: fieldsAux rest []
    else fieldsAux rest (c :: cur)

/-- strings.Fields (split around runs of whitespace, no empty fields). -/
def fieldsOf (s : GoStr) : List GoStr := fieldsAux s []

/-- strings.Join. -/
def joinSep (sep : GoStr) : List GoStr → GoStr
  | [] => []
  | [x] => x
  | x :: rest => x ++ sep ++ joinSep sep rest

def idxOfAux (c : Char) : List Char → Nat → Int
  | [], _ => -1
  | x :: rest, i => if x == c then (i : Int) else idxOfAux c rest (i + 1)

/-- strings.Index with a one-character needle (-1 when absent). -/
def indexOfChar (s : GoStr) (c : Char) : Int := idxOfAux c s 0

def lastIdxAux (c : Char) : List Char → Nat → Int → Int
  | [], _, best => best
  | x :: rest, i, best => lastIdxAux c rest (i + 1) (if x == c then (i : Int) else best)

/-- strings.LastIndex with a one-character needle (-1 when absent). -/
def lastIndexOfChar (s : GoStr) (c : Char) : Int := lastIdxAux c s 0 (-1)

def toLowerChar (c : Char) : Char :=
  if 'A' ≤ c ∧ c ≤ 'Z' then Char.ofNat (c.toNat + 32) else c

/-- strings.ToLower (ASCII fragment). -/
def toLowerAscii (s : GoStr) : GoStr := s.map toLowerChar

/-- strings.EqualFold (ASCII fragment; every folded input in the sources is
ASCII, e.g. the keyword "optional"). -/
def equalFold (a b : GoStr) : Bool := toLowerAscii a == toLowerAscii b

def digitsToNatAux : List Char → Nat → Option Nat
  | [], acc => some acc
  | c :: rest, acc =>
    if c.isDigit then digitsToNatAux rest (acc * 10 + (c.toNat - '0'.toNat)) else none

/-- strconv.Atoi (sign plus decimal digits; overflow is not modelled since no
claim exercises it). -/
def atoi (s : GoStr) : Option Int :=
  match s with
  | [] => none
  | '-' :: rest => if rest.isEmpty then none else (digitsToNatAux rest 0).map (fun n => -(n : Int))
  | '+' :: rest => if rest.isEmpty then none else (digitsToNatAux rest 0).map (fun n => (n : Int))
  | _ => (digitsToNatAux s 0).map (fun n => (n : Int))

/-! Data model, from models/models.go (the revision carrying TypeParams,
src/unnamed/part_002, which subsumes the other two model revisions). -/

structure StructKey where
  Package : GoStr
  Name : GoStr
deriving DecidableEq

structure StructField where
  Name : GoStr
  «Type» : GoStr
  Description : GoStr
  JSONName : GoStr
deriving DecidableEq

structure TypeParam where
  Name : GoStr
  Constraint : GoStr
deriving DecidableEq

structure StructDefinition where
  Name : GoStr
  Description : GoStr
  Fields : List StructField
  TypeParams : List TypeParam
deriving DecidableEq

structure APIParameter where
  Name : GoStr
  «Type» : GoStr
  Description : GoStr
  Required : Bool
deriving DecidableEq

structure APIReturn where
  Name : GoStr
  «Type» : GoStr
  Description : GoStr
  Required : Bool
deriving DecidableEq

structure APIError where
  Code : Int
  Description : GoStr
deriving DecidableEq

structure ProjectInfo where
  Title : GoStr := []
  Version : GoStr := []
  Description : GoStr := []
  Author : GoStr := []
  License : GoStr := []
  Contact : GoStr := []
  Terms : GoStr := []
  Repository : GoStr := []
  Tags : List GoStr := []
  Copyright : GoStr := []
deriving DecidableEq

/-- Go map[string]string (import-alias tables), as an association list:
first-match lookup, overwrite-in-place insertion. -/
abbrev AliasTable : Type := List (GoStr × GoStr)

def lookupA : AliasTable → GoStr → Option GoStr
  | [], _ => none
  | (k, v) :: rest, a => if k = a then some v else lookupA rest a

def insertA (t : AliasTable) (k v : GoStr) : AliasTable :=
  if t.any (fun e => e.1 == k) then t.map (fun e => if e.1 = k then (k, v) else e)
  else t ++ [(k, v)]

/-- Go map[models.StructKey]models.StructDefinition, as an association list. -/
abbrev Table : Type := List (StructKey × StructDefinition)

def lookupT : Table → StructKey → Option StructDefinition
  | [], _ => none
  | (k, v) :: rest, a => if k = a then some v else lookupT rest a

def insertT (t : Table) (k : StructKey) (v : StructDefinition) : Table :=
  if t.any (fun e => e.1 == k) then t.map (fun e => if e.1 = k then (k, v) else e)
  else t ++ [(k, v)]

/-- Number of table entries stored under a key. -/
def countKey : Table → StructKey → Nat
  | [], _ => 0
  | e :: rest, k => (if e.1 = k then 1 else 0) + countKey rest k

/-- One admissible order for the Go range-over-keys search by key name
(map range order is unspecified in Go; every claim settled below that uses
this has at most one matching entry, so any order gives the same result). -/
def findKeyByName (t : Table) (n : GoStr) : Option StructKey :=
  (t.find? (fun e => e.1.Name == n)).map (fun e => e.1)

def findKeyBy (t : Table) (p : StructKey → Bool) : Option StructKey :=
  (t.find? (fun e => p e.1)).map (fun e => e.1)

/-- One admissible order for `for _, structDef := range m` searched by the
Name field of the definition. -/
def findValByName (t : Table) (n : GoStr) : Option StructDefinition :=
  (t.find? (fun e => e.2.Name == n)).map (fun e => e.2)

/-! utils/utils.go (shipped inside models part of src/models/models.go). -/

/-- The fixed basic-type list of utils.IsBasicType. -/
def basicTypes : List GoStr :=
  [("bool".data), ("string".data),
   ("int".data), ("int8".data), ("int16".data), ("int32".data), ("int64".data),
   ("uint".data), ("uint8".data), ("uint16".data), ("uint32".data), ("uint64".data),
   ("uintptr".data),
   ("byte".data), ("rune".data),
   ("float32".data), ("float64".data),
   ("complex64".data), ("complex128".data)]

/-- utils.IsBasicType: membership in the fixed basic-type list. -/
def IsBasicType (typ : GoStr) : Bool := basicTypes.any (fun bt => bt == typ)

def splitTypeArgumentsGo : List Char → Int → GoStr → List GoStr → List GoStr
  | [], _, cur, args => if cur.length > 0 then args ++ [trimSpace cur] else args
  | r :: rest, depth, cur, args =>
    if r == '[' then splitTypeArgumentsGo rest (depth + 1) (cur ++ [r]) args
    else if r == ']' then splitTypeArgumentsGo rest (depth - 1) (cur ++ [r]) args
    else if r == ',' then
      if depth = 0 then splitTypeArgumentsGo rest depth [] (args ++ [trimSpace cur])
      else splitTypeArgumentsGo rest depth (cur ++ [r]) args
    else splitTypeArgumentsGo rest depth (cur ++ [r]) args

/-- utils.splitTypeArguments: split type arguments at commas occurring at
bracket depth zero only. -/
def splitTypeArguments (argsStr : GoStr) : List GoStr :=
  splitTypeArgumentsGo argsStr 0 [] []

/-- utils.ParseGenericType: split a raw spelling into base type and bracketed
type-argument list ("Pagination[ReportItem]" gives base "Pagination" and one
argument "ReportItem"). -/
def ParseGenericType (typ : GoStr) : GoStr × List GoStr :=
  let start := indexOfChar typ '['
  let stop := lastIndexOfChar typ ']'
  if start = -1 || stop = -1 || stop ≤ start + 1 then (typ, [])
  else
    let baseType := trimSpace (typ.take start.toNat)
    let argsStr := (typ.take stop.toNat).drop (start.toNat + 1)
    (baseType, splitTypeArguments argsStr)

/-- Core loop of strings.Replace(s, old, new, -1) for a non-empty old: at each
position, if old matches there, emit new and skip old, otherwise copy one
character.  The first argument counts characters still to skip after a match. -/
def replaceScan (old new : GoStr) : Nat → List Char → List Char
  | k + 1, _ :: rest => replaceScan old new k rest
  | _ + 1, [] => []
  | 0, [] => []
  | 0, c :: rest =>
    if List.isPrefixOf old (c :: rest) then new ++ replaceScan old new (old.length - 1) rest
    else c :: replaceScan old new 0 rest

/-- strings.Replace with an empty old pattern inserts new before every
character and at the end. -/
def replaceEmptyOld (new : GoStr) : List Char → GoStr
  | [] => new
  | c :: rest => new ++ c :: replaceEmptyOld new rest

/-- strings.ReplaceAll. -/
def replaceAll (s old new : GoStr) : GoStr :=
  match old with
  | [] => replaceEmptyOld new s
  | _ :: _ => replaceScan old new 0 s

/-- utils.ReplaceTypeParams: positional textual substitution of type-parameter
names by concrete names; a length mismatch returns the type text unchanged. -/
def ReplaceTypeParams (typ : GoStr) (typeParams : List TypeParam) (concreteTypes : List GoStr) : GoStr :=
  if typeParams.length ≠ concreteTypes.length then typ
  else (typeParams.zip concreteTypes).foldl (fun t pc => replaceAll t pc.1.Name pc.2) typ

/-! generator/generator.go, revisions one and two.  Both revisions carry the
same resolvePackageAndType (lines 253-287 and 649-681), embedded once. -/

/-- generator.resolvePackageAndType: a qualified reference resolves through
the alias table (falling back to the qualifier text as package name); an
unqualified reference resolves to the current package only when the catalog
holds that key, and fails (empty results) otherwise. -/
def resolvePackageAndType (typ currentPackage : GoStr) (importAliases : AliasTable)
    (structDefinitions : Table) : GoStr × GoStr :=
  if containsChar typ '.' then
    match splitOnChar '.' typ with
    | [al, typeName] =>
      match lookupA importAliases al with
      | some pkgAlias => (pkgAlias, typeName)
      | none => (al, typeName)
    | _ => ([], [])
  else
    if (lookupT structDefinitions ⟨currentPackage, typ⟩).isSome then (currentPackage, typ)
    else ([], [])

/-- State threaded through collectStructsFromType: the structsToDocument and
visited sets of the Go code, as insertion-ordered duplicate-free lists. -/
abbrev CollectSt : Type := List StructKey × List StructKey

/-- Sequential state threading for a loop of recursive collection calls
(the for-loops over typeArgs and over struct fields). -/
def collectMany (step : GoStr → CollectSt → Option CollectSt) :
    List GoStr → CollectSt → Option CollectSt
  | [], st => some st
  | t :: rest, st =>
    match step t st with
    | none => none
    | some st1 => collectMany step rest st1

/-- generator.collectStructsFromType (revision one, lines 204-251), with an
explicit recursion-depth fuel so the embedding is total; a none result means
the fuel was exhausted before the Go recursion returned.  The Go function
mutates two maps; here they thread through as CollectSt. -/
def collectStructsFromType (structDefinitions : Table) :
    Nat → GoStr → GoStr → AliasTable → CollectSt → Option CollectSt
  | 0, _, _, _, _ => none
  | n + 1, typ, currentPackage, importAliases, (std, vis) =>
    let pr := ParseGenericType typ
    if IsBasicType pr.1 then some (std, vis)
    else
      let r := resolvePackageAndType pr.1 currentPackage importAliases structDefinitions
      if r.2 = [] then some (std, vis)
      else
        let key : StructKey := ⟨r.1, r.2⟩
        let std1 := if std.contains key then std else std ++ [key]
        match collectMany
            (fun t st => collectStructsFromType structDefinitions n t currentPackage importAliases st)
            pr.2 (std1, vis) with
        | none => none
        | some (std2, vis2) =>
          if vis2.contains key then some (std2, vis2)
          else
            let vis3 := vis2 ++ [key]
            match lookupT structDefinitions key with
            | none => some (std2, vis3)
            | some sd =>
              collectMany
                (fun t st => collectStructsFromType structDefinitions n t key.Package [] st)
                (sd.Fields.map (fun f => f.«Type»)) (std2, vis3)

/-- The per-field resolution of the field loop of
generator.printStructDefinitionInline (revision two, lines 600-645): returns
the struct key the loop recurses into, or none when the field is skipped. -/
def fieldRefKey (structDefinitions : Table) (ctxPackage : GoStr) (f : StructField) :
    Option StructKey :=
  let pr := ParseGenericType f.«Type»
  if IsBasicType pr.1 then none
  else
    let r := resolvePackageAndType pr.1 ctxPackage [] structDefinitions
    if r.2 = [] then none
    else
      let concreteType :=
        if pr.2 ≠ [] then r.2 ++ ("[".data) ++ joinSep (", ".data) pr.2 ++ ("]".data)
        else r.2
      match findKeyByName structDefinitions concreteType with
      | some k => some k
      | none =>
        if pr.2 = [] then
          findKeyBy structDefinitions
            (fun k => k.Name == r.2 && (r.1 == ([] : GoStr) || k.Package == r.1))
        else none

/-- Sequential printing of the structs referenced by a field list, threading
the none (fuel exhausted) outcome. -/
def printMany (printOne : StructKey → Option (List StructKey)) :
    List StructKey → Option (List StructKey)
  | [] => some []
  | k :: rest =>
    match printOne k with
    | none => none
    | some l1 =>
      match printMany printOne rest with
      | none => none
      | some l2 => some (l1 ++ l2)

/-- generator.printStructDefinitionInline (revision two, lines 571-647),
returning the ordered sequence of struct keys whose definitions get printed.
The Go function takes a visited map, but its body never reads or writes it;
the parameter is kept here, passed along unchanged, to mirror the source.
Fuel bounds the recursion depth; none means the fuel ran out before the Go
recursion returned. -/
def printStructDefinitionInline (structDefinitions : Table) :
    Nat → StructKey → List StructKey → Option (List StructKey)
  | 0, _, _ => none
  | n + 1, key, visited =>
    match lookupT structDefinitions key with
    | none => some []
    | some structDef =>
      match printMany (fun k => printStructDefinitionInline structDefinitions n k visited)
          (structDef.Fields.filterMap (fieldRefKey structDefinitions key.Package)) with
      | none => none
      | some l => some (key :: l)

/-- The zero value of StructDefinition, returned by the findStruct variants on
a miss. -/
def emptyStructDef : StructDefinition := ⟨[], [], [], []⟩

namespace MdGen

/-! generator/generator.go revision three (GenerateMarkdown, lines 682-857). -/

/-- generator.resolveType (revision three, lines 824-836): split an optional
package qualifier off a type string; no decoration stripping. -/
def resolveType (typeStr : GoStr) : GoStr × GoStr :=
  if containsChar typeStr '.' then
    match splitOnChar '.' typeStr with
    | [p0, p1] => (p1, p0)
    | _ => (typeStr, [])
  else (typeStr, [])

/-- generator.findStruct (revision three, lines 838-857): exact key lookup
when a package is given; otherwise a global search by definition name over
every package. -/
def findStruct (structs : Table) (name packageName : GoStr) : StructDefinition × Bool :=
  if packageName ≠ [] then
    match lookupT structs ⟨packageName, name⟩ with
    | some d => (d, true)
    | none => (emptyStructDef, false)
  else
    match findValByName structs name with
    | some d => (d, true)
    | none => (emptyStructDef, false)

end MdGen

namespace MdGenRFC

/-! The GenerateMarkdown revision of src/unnamed/part_000 (the includeRFC
variant). -/

/-- generator.resolveType (part_000 lines 202-214); identical to the revision
three version. -/
def resolveType (typeStr : GoStr) : GoStr × GoStr :=
  if containsChar typeStr '.' then
    match splitOnChar '.' typeStr with
    | [p0, p1] => (p1, p0)
    | _ => (typeStr, [])
  else (typeStr, [])

/-- generator.findStruct (part_000 lines 216-246): exact key lookup when a
package is given; otherwise the local package is tried first, then a global
first-match search by definition name. -/
def findStruct (structs : Table) (name packageName localPackage : GoStr) :
    StructDefinition × Bool :=
  if packageName ≠ [] then
    match lookupT structs ⟨packageName, name⟩ with
    | some d => (d, true)
    | none => (emptyStructDef, false)
  else
    match lookupT structs ⟨localPackage, name⟩ with
    | some d => (d, true)
    | none =>
      match findValByName structs name with
      | some d => (d, true)
      | none => (emptyStructDef, false)

end MdGenRFC

/-! The generic instantiator. -/

/-- The display-name resolution of generator.GenerateDocumentation revision
two (lines 493-505): each type argument is resolved and qualified with its
package when that package differs from the package of the function. -/
def resolveDisplayName (arg ctxPackage : GoStr) (aliases : AliasTable) (defs : Table) : GoStr :=
  let r := resolvePackageAndType arg ctxPackage aliases defs
  let argName := if r.2 = [] then arg else r.2
  if r.1 ≠ [] ∧ r.1 ≠ ctxPackage then r.1 ++ (".".data) ++ argName else argName

/-- The synthesized concrete name of generator.GenerateDocumentation revision
two (line 505): baseName[arg1, arg2, ...]. -/
def synthName (baseName : GoStr) (displayNames : List GoStr) : GoStr :=
  baseName ++ ("[".data) ++ joinSep (", ".data) displayNames ++ ("]".data)

/-- Modelled from the spec: the generic-instantiation step itself (spec 4.4,
steps 1 and 3-5) is not present under src/ — the shipped generator only looks
up already-registered concrete keys (generator.go lines 510-529, with the
comment "assume it's already created"), and no shipped parser revision
synthesizes concrete definitions.  Following the words of the spec: resolve the
generic key (non-generic declarations pass through); synthesize the key
(package of the generic, name baseName[args]); return it at once when already
registered (memoization); otherwise substitute the type parameters positionally
throughout the field list — using the utils.ReplaceTypeParams of the source, which
skips on a parameter/argument count mismatch — register the new definition and
return the key.  Display names (step 2) are taken as input; the source
computes them in generator.go lines 493-505 (resolveDisplayName above). -/
def instantiate (tbl : Table) (genericKey : StructKey) (displayNames : List GoStr) :
    StructKey × Table :=
  match lookupT tbl genericKey with
  | none => (genericKey, tbl)
  | some decl =>
    if decl.TypeParams.isEmpty then (genericKey, tbl)
    else
      let key : StructKey := ⟨genericKey.Package, synthName genericKey.Name displayNames⟩
      match lookupT tbl key with
      | some _ => (key, tbl)
      | none =>
        if decl.TypeParams.length ≠ displayNames.length then (genericKey, tbl)
        else
          let fields := decl.Fields.map
            (fun f => { f with «Type» := ReplaceTypeParams f.«Type» decl.TypeParams displayNames })
          (key, insertT tbl key ⟨key.Name, decl.Description, fields, []⟩)

/-- models.APIFunction (revision of src/unnamed/part_002). -/
structure APIFunction where
  Command : GoStr
  Description : GoStr
  Parameters : List APIParameter
  Results : List APIReturn
  Errors : List APIError
  ImportAliases : AliasTable
  PackageName : GoStr
  AdditionalStructs : List GoStr
deriving DecidableEq

namespace SrcParser

/-! parser/parser.go (the main revision, lines 1-725).  The directory walk is
modelled as a list of walk entries: an I/O error raised by filepath.Walk, or a
.go file that either failed to parse (skipped at lines 63-66) or parsed into
its package name, imports, optional file comment, struct declarations, and
function doc comments.  The walk-level filters (vendor and hidden directories,
non-.go and test files, lines 49-59) only decide which files appear in this
list, so they are left to the environment. -/

/-- The sentinel errors of parser.go lines 22-28, plus a constructor for the
ad-hoc errors.New values of parseFunction.  errors.Is(err, ErrMissingCommand)
holds exactly for missingCommand, and the fmt.Errorf of line 496 wraps
ErrMultipleResults, i.e. multipleResults. -/
inductive FnErr
  | missingCommand
  | multipleResults
  | invalidErrorCode
  | missingDescription
  | malformedResult
  | other (msg : GoStr)
deriving DecidableEq

/-- parser.isBasicType (lines 375-397): the basic-type set of the parser (it
lacks uintptr and the complex types of the utils version). -/
def isBasicType (typeName : GoStr) : Bool :=
  [("string".data), ("bool".data),
   ("int".data), ("int8".data), ("int16".data), ("int32".data), ("int64".data),
   ("uint".data), ("uint8".data), ("uint16".data), ("uint32".data), ("uint64".data),
   ("float32".data), ("float64".data),
   ("byte".data), ("rune".data)].any (fun bt => bt == typeName)

/-- parser.resolveType (lines 711-725): strip the leading run of pointer and
bracket decorations, then split an optional package qualifier. -/
def resolveType (typeStr : GoStr) : GoStr × GoStr :=
  let stripped := typeStr.dropWhile (fun c => c == '*' || c == '[' || c == ']')
  if containsChar stripped '.' then
    match splitOnChar '.' stripped with
    | [p0, p1] => (p1, p0)
    | _ => (stripped, [])
  else (stripped, [])

/-- A single import declaration: the optional explicit alias (imp.Name) and
the quoted path literal (imp.Path.Value). -/
structure GoImport where
  name : Option GoStr
  pathLit : GoStr
deriving DecidableEq

/-- parser.extractImportAliases (lines 399-416): the key is the explicit alias
when present, else the last path segment; the stored value is that same alias
text (the code assigns importAliases[alias] = alias). -/
def extractImportAliases (imports : List GoImport) : AliasTable :=
  imports.foldl
    (fun m imp =>
      let al :=
        match imp.name with
        | some n => n
        | none => (splitOnChar '/' (trimCharBoth '"' imp.pathLit)).getLastD []
      insertA m al al)
    []

/-- The mutable locals of the scanning loop of parseFunction (lines 424-492). -/
structure ScanState where
  command : GoStr := []
  description : GoStr := []
  params : List APIParameter := []
  errors : List APIError := []
  resultLines : List GoStr := []
deriving DecidableEq

def initScan : ScanState := {}

/-- One iteration of the line scanner of parseFunction (lines 430-492). -/
def scanLine (st : ScanState) (raw : GoStr) : Except FnErr ScanState :=
  let line := trimSpace raw
  if ¬ startsWithStr ("@".data) line then .ok st
  else
    match fieldsOf line with
    | [] => .ok st
    | p0 :: prest =>
      if p0 = ("@Command".data) then
        if (p0 :: prest).length < 2 then
          .error (.other ("missing command name in @Command annotation".data))
        else .ok { st with command := prest.headD [] }
      else if p0 = ("@Description".data) then
        .ok { st with description := trimSpace (trimPrefixStr line ("@Description".data)) }
      else if p0 = ("@Parameter".data) then
        if (p0 :: prest).length < 3 then .error (.other ("invalid @Parameter annotation".data))
        else
          let paramName := prest.headD []
          let paramType := (prest.drop 1).headD []
          let descParts := prest.drop 2
          let isOpt := descParts.length > 0 && equalFold (descParts.headD []) ("optional".data)
          let descParts2 := if isOpt then descParts.drop 1 else descParts
          .ok { st with params :=
            st.params ++ [⟨paramName, paramType, joinSep (" ".data) descParts2, !isOpt⟩] }
      else if p0 = ("@Result".data) then
        .ok { st with resultLines := st.resultLines ++ [line] }
      else if p0 = ("@Error".data) then
        if (p0 :: prest).length < 3 then .error (.other ("invalid @Error annotation".data))
        else
          match atoi (prest.headD []) with
          | none => .error .invalidErrorCode
          | some code =>
            .ok { st with errors := st.errors ++ [⟨code, joinSep (" ".data) (prest.drop 1)⟩] }
      else .ok st

def scanLines : List GoStr → ScanState → Except FnErr ScanState
  | [], st => .ok st
  | l :: rest, st =>
    match scanLine st l with
    | .error e => .error e
    | .ok st1 => scanLines rest st1

/-- parser.parseFunction (lines 423-557) on the doc-comment lines: scan every
annotation line, reject more than one @Result, process the single @Result,
then validate @Command and @Description.  The attempt at lines 518-545 to
locate the struct of the result type on the filesystem (findAndParseStruct) only
mutates the shared catalog and logs; it cannot change the returned function or
error, so it is not part of this value-level embedding. -/
def parseFunction (doc : List GoStr) (currentPackage : GoStr) (importAliases : AliasTable) :
    Except FnErr APIFunction :=
  match scanLines doc initScan with
  | .error e => .error e
  | .ok st =>
    if st.resultLines.length > 1 then .error .multipleResults
    else
      let results : Except FnErr (List APIReturn) :=
        match st.resultLines with
        | [] => .ok []
        | l :: _ =>
          let parts := fieldsOf (trimSpace l)
          if parts.length < 3 then .error .malformedResult
          else .ok [⟨("result".data), (parts.drop 1).headD [],
                     joinSep (" ".data) (parts.drop 2), true⟩]
      match results with
      | .error e => .error e
      | .ok rs =>
        if st.command = [] then .error .missingCommand
        else if st.description = [] then .error .missingDescription
        else .ok ⟨st.command, st.description, st.params, rs, st.errors,
                  importAliases, currentPackage, []⟩

/-- One line of parser.parseGlobalTags (lines 580-649): strip comment markers,
match the lowercased annotation, update the project info or fail on a missing
value.  Matching lowercases parts[0], but the @description value is cut with
a case-sensitive TrimPrefix of the original line, exactly as in the source. -/
def applyGlobalTag (info : ProjectInfo) (raw : GoStr) : Except GoStr ProjectInfo :=
  let line := trimSpace raw
  let line := trimPrefixStr line ("//".data)
  let line := trimPrefixStr line ("/*".data)
  let line := trimSuffixStr line ("*/".data)
  let line := trimSpace line
  if ¬ startsWithStr ("@".data) line then .ok info
  else
    match fieldsOf line with
    | [] => .ok info
    | p0 :: prest =>
      let ann := toLowerAscii p0
      let value := joinSep (" ".data) prest
      if ann = ("@title".data) then
        if prest.length = 0 then .error ("missing value in @title annotation".data)
        else .ok { info with Title := value }
      else if ann = ("@version".data) then
        if prest.length = 0 then .error ("missing value in @version annotation".data)
        else .ok { info with Version := value }
      else if ann = ("@description".data) then
        .ok { info with Description := trimSpace (trimPrefixStr line ("@description".data)) }
      else if ann = ("@author".data) then
        if prest.length = 0 then .error ("missing value in @author annotation".data)
        else .ok { info with Author := value }
      else if ann = ("@license".data) then
        if prest.length = 0 then .error ("missing value in @license annotation".data)
        else .ok { info with License := value }
      else if ann = ("@contact".data) then
        if prest.length = 0 then .error ("missing value in @contact annotation".data)
        else .ok { info with Contact := value }
      else if ann = ("@terms".data) then
        if prest.length = 0 then .error ("missing value in @terms annotation".data)
        else .ok { info with Terms := value }
      else if ann = ("@repository".data) then
        if prest.length = 0 then .error ("missing value in @repository annotation".data)
        else .ok { info with Repository := value }
      else if ann = ("@tags".data) then
        if prest.length = 0 then .error ("missing value in @tags annotation".data)
        else .ok { info with Tags := splitOnChar ',' value }
      else if ann = ("@copyright".data) then
        if prest.length = 0 then .error ("missing value in @copyright annotation".data)
        else .ok { info with Copyright := value }
      else .ok info

def globalTagsLoop : List GoStr → ProjectInfo → Except GoStr ProjectInfo
  | [], info => .ok info
  | l :: rest, info =>
    match applyGlobalTag info l with
    | .error e => .error e
    | .ok info1 => globalTagsLoop rest info1

/-- parser.parseGlobalTags (lines 578-664): scan the comment lines, then
require @title, @version and @description to be present. -/
def parseGlobalTags (commentLines : List GoStr) : Except GoStr ProjectInfo :=
  match globalTagsLoop commentLines {} with
  | .error e => .error e
  | .ok info =>
    if info.Title = [] then .error ("missing @title annotation".data)
    else if info.Version = [] then .error ("missing @version annotation".data)
    else if info.Description = [] then .error ("missing @description annotation".data)
    else .ok info

/-- A parsed .go file, as ParseProject consumes it: package name, imports,
the optional file-level doc comment, the struct declarations already carried
into StructDefinition form (the field extraction from the AST, lines 98-132,
is pure data shuffling the claims do not touch), and one optional doc comment
per function declaration (none when fn.Doc is nil). -/
structure GoFile where
  pkgName : GoStr
  imports : List GoImport
  fileDoc : Option (List GoStr)
  structs : List StructDefinition
  funcDocs : List (Option (List GoStr))
deriving DecidableEq

/-- One event seen by the filepath.Walk callback: an I/O error (propagated at
lines 45-47, aborting the walk), or a .go file — none when go/parser failed on
it (skipped at lines 63-66). -/
inductive WalkEntry
  | ioErr (msg : GoStr)
  | goFile (parsed : Option GoFile)
deriving DecidableEq

/-- The mutable state of ParseProject (lines 33-42), plus the list of
diagnostics printed through log.Printf at line 194. -/
structure PPState where
  apiFunctions : List APIFunction := []
  structDefinitions : Table := []
  projectInfo : ProjectInfo := {}
  projectInfoSet : Bool := false
  logs : List FnErr := []
deriving DecidableEq

def initPP : PPState := {}

/-- The function loop of ParseProject (lines 177-207): parse each doc comment;
append the function on success; on failure log unless the error is
ErrMissingCommand (lines 188-197); and try the comment for global tags when
none have been found yet (lines 200-206). -/
def parseFnLoop (pkg : GoStr) (aliases : AliasTable) (st : PPState) :
    List (Option (List GoStr)) → PPState
  | [] => st
  | none :: rest => parseFnLoop pkg aliases st rest
  | some doc :: rest =>
    let st1 :=
      match parseFunction doc pkg aliases with
      | .ok f => { st with apiFunctions := st.apiFunctions ++ [f] }
      | .error e =>
        if e = FnErr.missingCommand then st else { st with logs := st.logs ++ [e] }
    let st2 :=
      if ¬ st1.projectInfoSet then
        match parseGlobalTags doc with
        | .ok info => { st1 with projectInfo := info, projectInfoSet := true }
        | .error _ => st1
      else st1
    parseFnLoop pkg aliases st2 rest

/-- Processing of one parsed file inside the walk callback (lines 68-207):
global tags from the file comment, direct struct registration under the
declaring package (lines 168-172; the filesystem-recursive nested-struct
chase of lines 134-165 only adds extra catalog entries through I/O and is not
part of this value-level model), then the function loop. -/
def processFile (st : PPState) (f : GoFile) : PPState :=
  let aliases := extractImportAliases f.imports
  let st1 :=
    match f.fileDoc with
    | some doc =>
      if ¬ st.projectInfoSet then
        match parseGlobalTags doc with
        | .ok info => { st with projectInfo := info, projectInfoSet := true }
        | .error _ => st
      else st
    | none => st
  let tbl := f.structs.foldl (fun t sd => insertT t ⟨f.pkgName, sd.Name⟩ sd) st1.structDefinitions
  let st2 := { st1 with structDefinitions := tbl }
  parseFnLoop f.pkgName aliases st2 f.funcDocs

/-- The filepath.Walk fold: a callback error aborts the walk with that error
(lines 45-47 with 212-214); a file that failed to parse is skipped. -/
def walkGo (st : PPState) : List WalkEntry → Except GoStr PPState
  | [] => .ok st
  | WalkEntry.ioErr m :: _ => .error m
  | WalkEntry.goFile none :: rest => walkGo st rest
  | WalkEntry.goFile (some f) :: rest => walkGo (processFile st f) rest

/-- parser.ParseProject (lines 32-221): walk, then fail when no global tags
were found anywhere (lines 216-218). -/
def ParseProject (entries : List WalkEntry) :
    Except GoStr (List APIFunction × Table × ProjectInfo) :=
  match walkGo initPP entries with
  | .error e => .error e
  | .ok st =>
    if ¬ st.projectInfoSet then
      .error ("no global tags found in any Go file. Please include global tags in at least one file".data)
    else .ok (st.apiFunctions, st.structDefinitions, st.projectInfo)

end SrcParser

/-! Concrete fixtures used by the claim theorems and witnesses. -/

def pkgP : GoStr := ("p".data)

/-- Struct A of the mutually-recursive pair: its field references B. -/
def defA : StructDefinition :=
  ⟨("A".data), [], [⟨("Next".data), ("B".data), [], ("next".data)⟩], []⟩

/-- Struct B of the mutually-recursive pair: its field references A. -/
def defB : StructDefinition :=
  ⟨("B".data), [], [⟨("Prev".data), ("A".data), [], ("prev".data)⟩], []⟩

def kA : StructKey := ⟨pkgP, ("A".data)⟩

def kB : StructKey := ⟨pkgP, ("B".data)⟩

/-- A catalog holding exactly the mutually-recursive pair A and B. -/
def cycCat : Table := [(kA, defA), (kB, defB)]

def pagKey : StructKey := ⟨pkgP, ("Pagination".data)⟩

/-- The generic declaration Pagination[T] with fields Data []T and Page int. -/
def pagDecl : StructDefinition :=
  ⟨("Pagination".data), ("Paged data".data),
   [⟨("Data".data), ("[]T".data), [], ("data".data)⟩,
    ⟨("Page".data), ("int".data), [], ("page".data)⟩],
   [⟨("T".data), ("any".data)⟩]⟩

def tblPag : Table := [(pagKey, pagDecl)]

def statsOtherDef : StructDefinition := ⟨("Stats".data), [], [], []⟩

def statsHandlersDef : StructDefinition := ⟨("Stats".data), ("handler stats".data), [], []⟩

/-- A catalog declaring Stats in two packages, the foreign one first. -/
def statsCat : Table :=
  [(⟨("other".data), ("Stats".data)⟩, statsOtherDef),
   (⟨("handlers".data), ("Stats".data)⟩, statsHandlersDef)]

/-- A catalog entry adversarially named with the raw spelling of a byte
slice. -/
def byteSliceDef : StructDefinition := ⟨("[]byte".data), [], [], []⟩

/-- A file whose file comment supplies the three mandatory global tags. -/
def goodFile : SrcParser.GoFile :=
  ⟨("main".data), [], some [("@title T".data), ("@version 1.0".data), ("@description D".data)],
   [], []⟩

def goodInfo : ProjectInfo :=
  { Title := ("T".data), Version := ("1.0".data), Description := ("D".data) }

/-- A doc comment with two @Result lines followed by a malformed @Parameter
line (and no @Command). -/
def docBad : List GoStr :=
  [("@Result int a".data), ("@Result int b".data), ("@Parameter p".data)]

/-- A doc comment with two @Result lines and no @Command. -/
def docNoCmd : List GoStr := [("@Result int a".data), ("@Result int b".data)]

/-- A doc comment carrying only a description. -/
def docDescOnly : List GoStr := [("@Description d".data)]

/-! Claim theorems. -/

/-- Claim C6 (confirmed): parsing Pair[Outer[Inner], string] yields base name
Pair and exactly the two arguments Outer[Inner] and string; a second nested
instance shows commas inside brackets never split, so nested bracketed
arguments stay whole. -/
theorem c6_nested_split :
    ParseGenericType ("Pair[Outer[Inner], string]".data) =
      (("Pair".data), [("Outer[Inner]".data), ("string".data)]) ∧
    ParseGenericType ("Pair[Outer[Inner, X], Map[K, V]]".data) =
      (("Pair".data), [("Outer[Inner, X]".data), ("Map[K, V]".data)]) := by decide

/-- Claim C3 (code_bug evaluation): resolution does use the alias target —
given the table mapping m to models, the qualified reference m.User resolves
to (models, User) for every context package and catalog; but the shipped
extractImportAliases never builds such a table: for import m "github.com/x/models"
it stores the alias m under itself instead of the imported package identifier
models, contradicting its own doc comment "extracts a map of alias to package
name". -/
theorem c3_qualifier_alias_table :
    (∀ ctx : GoStr, ∀ defs : Table,
      resolvePackageAndType ("m.User".data) ctx [(("m".data), ("models".data))] defs =
        (("models".data), ("User".data))) ∧
    SrcParser.extractImportAliases [⟨some ("m".data), ("\"github.com/x/models\"".data)⟩] =
      [(("m".data), ("m".data))] := by
  exact ⟨fun ctx defs => rfl, rfl⟩

/-- Claim C4 counterexample: the catalog declares Stats only in package other,
so the unqualified reference Stats under context package handlers is absent
from (handlers, Stats); yet the part_000 findStruct succeeds through its
global by-name search instead of failing — the silent cross-package fallback
the claim rules out. -/
theorem c4_global_fallback_cex :
    lookupT [(⟨("other".data), ("Stats".data)⟩, statsOtherDef)]
        ⟨("handlers".data), ("Stats".data)⟩ = none ∧
    MdGenRFC.findStruct [(⟨("other".data), ("Stats".data)⟩, statsOtherDef)]
        ("Stats".data) [] ("handlers".data) = (statsOtherDef, true) := by decide

/-- Claim C4 as amended: the map-keyed resolver resolvePackageAndType does
fail strictly — an unqualified reference absent under (contextPackage, name)
resolves to the empty pair with no search of other packages — while the
GenerateMarkdown-revision resolver findStruct falls back to a global by-name
search over all packages when the reference carries no qualifier. -/
theorem c4_strict_resolution
    (defs : Table) (ctx typ : GoStr) (aliases : AliasTable)
    (structs : Table) (name localPackage : GoStr) (d : StructDefinition)
    (hdot : containsChar typ '.' = false)
    (habs : lookupT defs ⟨ctx, typ⟩ = none)
    (hlocal : lookupT structs ⟨localPackage, name⟩ = none)
    (hglob : findValByName structs name = some d) :
    resolvePackageAndType typ ctx aliases defs = ([], []) ∧
    MdGenRFC.findStruct structs name [] localPackage = (d, true) := by
  constructor
  · simp [resolvePackageAndType, hdot, habs]
  · simp [MdGenRFC.findStruct, hlocal, hglob]

theorem c4_strict_resolution_w :
    resolvePackageAndType ("Stats".data) ("handlers".data) [] [] = ([], []) ∧
    MdGenRFC.findStruct [(⟨("other".data), ("Stats".data)⟩, statsOtherDef)]
        ("Stats".data) [] ("handlers".data) = (statsOtherDef, true) :=
  c4_strict_resolution [] ("handlers".data) ("Stats".data) []
    [(⟨("other".data), ("Stats".data)⟩, statsOtherDef)] ("Stats".data) ("handlers".data)
    statsOtherDef (by decide) (by decide) (by decide) (by decide)

/-- Claim C5 (confirmed): an unqualified reference whose key exists under the
local (context) package resolves to exactly that key — both in the part_000
findStruct (local package consulted before the global search) and in
resolvePackageAndType (current-package lookup) — regardless of what other
packages declare. -/
theorem c5_local_priority
    (structs : Table) (name localPackage : GoStr) (d : StructDefinition)
    (defs : Table) (typ ctx : GoStr) (aliases : AliasTable)
    (h1 : lookupT structs ⟨localPackage, name⟩ = some d)
    (h2 : containsChar typ '.' = false)
    (h3 : (lookupT defs ⟨ctx, typ⟩).isSome = true) :
    MdGenRFC.findStruct structs name [] localPackage = (d, true) ∧
    resolvePackageAndType typ ctx aliases defs = (ctx, typ) := by
  constructor
  · simp [MdGenRFC.findStruct, h1]
  · simp [resolvePackageAndType, h2, h3]

theorem c5_local_priority_w :
    MdGenRFC.findStruct statsCat ("Stats".data) [] ("handlers".data) =
      (statsHandlersDef, true) ∧
    resolvePackageAndType ("Stats".data) ("handlers".data) [] statsCat =
      (("handlers".data), ("Stats".data)) :=
  c5_local_priority statsCat ("Stats".data) ("handlers".data) statsHandlersDef
    statsCat ("Stats".data) ("handlers".data) [] (by decide) (by decide) (by decide)

/-- Claim C8 counterexample: the raw spelling []byte does not short-circuit as
a basic type — IsBasicType rejects it (only byte is in the list) and
ParseGenericType leaves it whole — and the graph collector does look it up in
the catalog: given an entry keyed (p, []byte), collectStructsFromType adds it
to the documentation graph. -/
theorem c8_byteslice_cex :
    IsBasicType ("[]byte".data) = false ∧
    ParseGenericType ("[]byte".data) = (("[]byte".data), []) ∧
    collectStructsFromType [(⟨pkgP, ("[]byte".data)⟩, byteSliceDef)] 2
        ("[]byte".data) pkgP [] ([], []) =
      some ([⟨pkgP, ("[]byte".data)⟩], [⟨pkgP, ("[]byte".data)⟩]) := by decide

/-- Claim C8 as amended: int, string and bool always short-circuit as basic
types and leave every documentation graph unchanged; []byte is not in
the IsBasicType set, so the generator traversal does consult the catalog for it
and excludes it only when no entry is keyed by the name []byte, while the
resolveType of the parser strips the slice decoration first, so byte short-circuits
on that path. -/
theorem c8_basic_short_circuit
    (ctx : GoStr) (aliases : AliasTable) (defs : Table)
    (std vis : List StructKey) (fuel : Nat)
    (habs : lookupT defs ⟨ctx, ("[]byte".data)⟩ = none) :
    IsBasicType ("int".data) = true ∧
    IsBasicType ("string".data) = true ∧
    IsBasicType ("bool".data) = true ∧
    collectStructsFromType defs (fuel + 1) ("int".data) ctx aliases (std, vis) =
      some (std, vis) ∧
    collectStructsFromType defs (fuel + 1) ("string".data) ctx aliases (std, vis) =
      some (std, vis) ∧
    collectStructsFromType defs (fuel + 1) ("bool".data) ctx aliases (std, vis) =
      some (std, vis) ∧
    SrcParser.resolveType ("[]byte".data) = (("byte".data), []) ∧
    SrcParser.isBasicType ("byte".data) = true ∧
    collectStructsFromType defs (fuel + 1) ("[]byte".data) ctx aliases (std, vis) =
      some (std, vis) := by
  refine ⟨rfl, rfl, rfl, rfl, rfl, rfl, rfl, rfl, ?_⟩
  have hcc : containsChar ("[]byte".data) '.' = false := by decide
  have hres : resolvePackageAndType ("[]byte".data) ctx aliases defs = ([], []) := by
    simp [resolvePackageAndType, hcc, habs]
  simp only [collectStructsFromType]
  rw [show ParseGenericType ("[]byte".data) = (("[]byte".data), []) from rfl]
  simp [hres]

theorem c8_basic_short_circuit_w :
    IsBasicType ("int".data) = true ∧
    IsBasicType ("string".data) = true ∧
    IsBasicType ("bool".data) = true ∧
    collectStructsFromType cycCat 1 ("int".data) pkgP [] ([], []) = some ([], []) ∧
    collectStructsFromType cycCat 1 ("string".data) pkgP [] ([], []) = some ([], []) ∧
    collectStructsFromType cycCat 1 ("bool".data) pkgP [] ([], []) = some ([], []) ∧
    SrcParser.resolveType ("[]byte".data) = (("byte".data), []) ∧
    SrcParser.isBasicType ("byte".data) = true ∧
    collectStructsFromType cycCat 1 ("[]byte".data) pkgP [] ([], []) = some ([], []) :=
  c8_basic_short_circuit pkgP [] cycCat [] [] 0 (by decide)

/-- Claim C9 counterexample: a run whose walk meets one well-formed file (its
comment carrying the mandatory global tags) and one file go/parser fails on
completes successfully — the parse failure is skipped, not fatal, and
documentation is produced from the symbol table without that file. -/
theorem c9_parse_skip_cex :
    SrcParser.ParseProject
        [SrcParser.WalkEntry.goFile (some goodFile), SrcParser.WalkEntry.goFile none] =
      Except.ok ([], [], goodInfo) := by rfl

/-- Claim C9 as amended: an I/O error reported to the walk callback is fatal —
the walk stops there and ParseProject returns that error — while a file that
fails to parse is skipped and the walk continues unchanged. -/
theorem c9_walk_errors (st : SrcParser.PPState) (rest : List SrcParser.WalkEntry) (m : GoStr) :
    SrcParser.walkGo st (SrcParser.WalkEntry.ioErr m :: rest) = Except.error m ∧
    SrcParser.walkGo st (SrcParser.WalkEntry.goFile none :: rest) = SrcParser.walkGo st rest ∧
    SrcParser.ParseProject (SrcParser.WalkEntry.ioErr m :: rest) = Except.error m :=
  ⟨rfl, rfl, rfl⟩

/-- Claim C1 (code_bug evaluation): on the mutually-recursive catalog cycCat
the collection traversal terminates with exactly one entry for A and one for B
in discovery order, but the inline-rendering traversal seeded at A never
returns whatever recursion depth it is allowed: printStructDefinitionInline
receives a visited map it neither reads nor marks, so the A-B cycle recurses
forever. -/
theorem c1_cycle_traversal :
    collectStructsFromType cycCat 3 ("A".data) pkgP [] ([], []) =
      some ([kA, kB], [kA, kB]) ∧
    ∀ fuel : Nat, printStructDefinitionInline cycCat fuel kA [] = none := by
  constructor
  · decide
  · have main : ∀ n, printStructDefinitionInline cycCat n kA [] = none ∧
        printStructDefinitionInline cycCat n kB [] = none := by
      intro n
      induction n with
      | zero => exact ⟨rfl, rfl⟩
      | succ n ih =>
        obtain ⟨ihA, ihB⟩ := ih
        have hlA : lookupT cycCat kA = some defA := rfl
        have hlB : lookupT cycCat kB = some defB := rfl
        have hfA : defA.Fields.filterMap (fieldRefKey cycCat kA.Package) = [kB] := by decide
        have hfB : defB.Fields.filterMap (fieldRefKey cycCat kB.Package) = [kA] := by decide
        constructor
        · simp only [printStructDefinitionInline, hlA, hfA, printMany, ihB]
        · simp only [printStructDefinitionInline, hlB, hfB, printMany, ihA]
    exact fun fuel => (main fuel).1

/-! Association-list lemmas used by the instantiation claim. -/

theorem lookupT_append_left (t t2 : Table) (k : StructKey) (v : StructDefinition)
    (h : lookupT t k = some v) : lookupT (t ++ t2) k = some v := by
  induction t with
  | nil => simp [lookupT] at h
  | cons e rest ih =>
    obtain ⟨ek, ev⟩ := e
    simp only [lookupT, List.cons_append] at h ⊢
    by_cases he : ek = k
    · simpa [he] using h
    · simp only [he, if_false] at h ⊢
      exact ih h

theorem lookupT_append_of_none (t t2 : Table) (k : StructKey)
    (h : lookupT t k = none) : lookupT (t ++ t2) k = lookupT t2 k := by
  induction t with
  | nil => simp
  | cons e rest ih =>
    obtain ⟨ek, ev⟩ := e
    simp only [lookupT, List.cons_append] at h ⊢
    by_cases he : ek = k
    · simp [he] at h
    · simp only [he, if_false] at h ⊢
      exact ih h

theorem countKey_append (t t2 : Table) (k : StructKey) :
    countKey (t ++ t2) k = countKey t k + countKey t2 k := by
  induction t with
  | nil => simp [countKey]
  | cons e rest ih =>
    simp only [List.cons_append, countKey, List.append_eq]
    rw [ih]
    omega

theorem countKey_zero_of_none (t : Table) (k : StructKey)
    (h : lookupT t k = none) : countKey t k = 0 := by
  induction t with
  | nil => rfl
  | cons e rest ih =>
    obtain ⟨ek, ev⟩ := e
    simp only [lookupT] at h
    by_cases he : ek = k
    · simp [he] at h
    · simp only [he, if_false] at h
      simp [countKey, he, ih h]

theorem countKey_zero_of_not_mem (t : Table) (k : StructKey)
    (h : k ∉ t.map (fun e => e.1)) : countKey t k = 0 := by
  induction t with
  | nil => rfl
  | cons e rest ih =>
    simp only [List.map_cons, List.mem_cons] at h
    push_neg at h
    have h1 : e.1 ≠ k := fun hh => h.1 hh.symm
    simp [countKey, h1, ih h.2]

theorem countKey_one_of_nodup (t : Table) (k : StructKey) (v : StructDefinition)
    (hnd : (t.map (fun e => e.1)).Nodup) (h : lookupT t k = some v) :
    countKey t k = 1 := by
  induction t with
  | nil => simp [lookupT] at h
  | cons e rest ih =>
    obtain ⟨ek, ev⟩ := e
    simp only [List.map_cons, List.nodup_cons] at hnd
    simp only [lookupT] at h
    by_cases he : ek = k
    · subst he
      simp [countKey, countKey_zero_of_not_mem rest ek hnd.1]
    · simp only [he, if_false] at h
      simp [countKey, he, ih hnd.2 h]

theorem any_false_of_none (t : Table) (k : StructKey)
    (h : lookupT t k = none) : t.any (fun e => e.1 == k) = false := by
  induction t with
  | nil => rfl
  | cons e rest ih =>
    obtain ⟨ek, ev⟩ := e
    simp only [lookupT] at h
    by_cases he : ek = k
    · simp [he] at h
    · simp only [he, if_false] at h
      simp [List.any_cons, he, ih h]

/-- Claim C2 (confirmed over the spec-modelled instantiator): for a registered
generic declaration and a matching argument list, instantiating twice yields
the same synthesized key both times, the second request leaves the table
untouched (memoized lookup, no re-synthesis), and the table holds exactly one
definition under that key. -/
theorem c2_instantiate_idempotent
    (tbl : Table) (G : StructKey) (args : List GoStr) (decl : StructDefinition)
    (hnd : (tbl.map (fun e => e.1)).Nodup)
    (hG : lookupT tbl G = some decl)
    (htp : decl.TypeParams ≠ [])
    (hlen : decl.TypeParams.length = args.length) :
    (instantiate (instantiate tbl G args).2 G args).1 = (instantiate tbl G args).1 ∧
    (instantiate (instantiate tbl G args).2 G args).2 = (instantiate tbl G args).2 ∧
    countKey (instantiate tbl G args).2 (instantiate tbl G args).1 = 1 := by
  have hne : decl.TypeParams.isEmpty = false := by
    cases hh : decl.TypeParams with
    | nil => exact absurd hh htp
    | cons a l => simp [hh]
  cases hfound : lookupT tbl ⟨G.Package, synthName G.Name args⟩ with
  | some d =>
    have h1 : instantiate tbl G args = (⟨G.Package, synthName G.Name args⟩, tbl) := by
      simp [instantiate, hG, hne, hfound]
    rw [h1]
    refine ⟨?_, ?_, ?_⟩
    · simp [h1]
    · simp [h1]
    · exact countKey_one_of_nodup tbl _ d hnd hfound
  | none =>
    have hins : insertT tbl ⟨G.Package, synthName G.Name args⟩
        ⟨synthName G.Name args, decl.Description,
         decl.Fields.map (fun f => { f with «Type» := ReplaceTypeParams f.«Type» decl.TypeParams args }), []⟩ =
        tbl ++ [(⟨G.Package, synthName G.Name args⟩,
         ⟨synthName G.Name args, decl.Description,
          decl.Fields.map (fun f => { f with «Type» := ReplaceTypeParams f.«Type» decl.TypeParams args }), []⟩)] := by
      simp [insertT, any_false_of_none tbl _ hfound]
    have h1 : instantiate tbl G args = (⟨G.Package, synthName G.Name args⟩,
        tbl ++ [(⟨G.Package, synthName G.Name args⟩,
         ⟨synthName G.Name args, decl.Description,
          decl.Fields.map (fun f => { f with «Type» := ReplaceTypeParams f.«Type» decl.TypeParams args }), []⟩)]) := by
      simp [instantiate, hG, hne, hfound, hlen, hins]
    have hG2 : lookupT (tbl ++ [(⟨G.Package, synthName G.Name args⟩,
         ⟨synthName G.Name args, decl.Description,
          decl.Fields.map (fun f => { f with «Type» := ReplaceTypeParams f.«Type» decl.TypeParams args }), []⟩)]) G = some decl :=
      lookupT_append_left _ _ _ _ hG
    have hk2 : lookupT (tbl ++ [(⟨G.Package, synthName G.Name args⟩,
         ⟨synthName G.Name args, decl.Description,
          decl.Fields.map (fun f => { f with «Type» := ReplaceTypeParams f.«Type» decl.TypeParams args }), []⟩)])
        ⟨G.Package, synthName G.Name args⟩ = some
         ⟨synthName G.Name args, decl.Description,
          decl.Fields.map (fun f => { f with «Type» := ReplaceTypeParams f.«Type» decl.TypeParams args }), []⟩ := by
      rw [lookupT_append_of_none _ _ _ hfound]
      simp [lookupT]
    rw [h1]
    refine ⟨?_, ?_, ?_⟩
    · simp [instantiate, hG2, hne, hk2]
    · simp [instantiate, hG2, hne, hk2]
    · rw [countKey_append, countKey_zero_of_none tbl _ hfound]
      simp [countKey]

theorem c2_instantiate_idempotent_w :
    (instantiate (instantiate tblPag pagKey [("ReportItem".data)]).2 pagKey
        [("ReportItem".data)]).1 =
      (instantiate tblPag pagKey [("ReportItem".data)]).1 ∧
    (instantiate (instantiate tblPag pagKey [("ReportItem".data)]).2 pagKey
        [("ReportItem".data)]).2 =
      (instantiate tblPag pagKey [("ReportItem".data)]).2 ∧
    countKey (instantiate tblPag pagKey [("ReportItem".data)]).2
      (instantiate tblPag pagKey [("ReportItem".data)]).1 = 1 :=
  c2_instantiate_idempotent tblPag pagKey [("ReportItem".data)] pagDecl
    (by decide) (by decide) (by decide) (by decide)

/-- Claim C7 (confirmed over the spec-modelled instantiator): instantiating
the generic Pagination[T] (fields Data []T, Page int) with ReportItem
registers a definition named Pagination[ReportItem] whose fields are
Data []ReportItem and Page int; and the ReplaceTypeParams of the source returns
the type text unchanged whenever the parameter and argument counts differ. -/
theorem c7_generic_substitution
    (t : GoStr) (ps : List TypeParam) (cs : List GoStr)
    (hm : ps.length ≠ cs.length) :
    (instantiate tblPag pagKey [("ReportItem".data)]).1 =
      ⟨pkgP, ("Pagination[ReportItem]".data)⟩ ∧
    lookupT (instantiate tblPag pagKey [("ReportItem".data)]).2
        ⟨pkgP, ("Pagination[ReportItem]".data)⟩ =
      some ⟨("Pagination[ReportItem]".data), ("Paged data".data),
            [⟨("Data".data), ("[]ReportItem".data), [], ("data".data)⟩,
             ⟨("Page".data), ("int".data), [], ("page".data)⟩], []⟩ ∧
    ReplaceTypeParams t ps cs = t := by
  refine ⟨by decide, by decide, ?_⟩
  simp [ReplaceTypeParams, hm]

theorem c7_generic_substitution_w :
    (instantiate tblPag pagKey [("ReportItem".data)]).1 =
      ⟨pkgP, ("Pagination[ReportItem]".data)⟩ ∧
    lookupT (instantiate tblPag pagKey [("ReportItem".data)]).2
        ⟨pkgP, ("Pagination[ReportItem]".data)⟩ =
      some ⟨("Pagination[ReportItem]".data), ("Paged data".data),
            [⟨("Data".data), ("[]ReportItem".data), [], ("data".data)⟩,
             ⟨("Page".data), ("int".data), [], ("page".data)⟩], []⟩ ∧
    ReplaceTypeParams ("[]T".data) [⟨("T".data), ("any".data)⟩] [] = ("[]T".data) :=
  c7_generic_substitution ("[]T".data) [⟨("T".data), ("any".data)⟩] [] (by decide)

/-- Claim C10 counterexample: the doc comment docBad carries two @Result lines
yet parseFunction fails with the @Parameter scan error, not with the
ErrMultipleResults wrap; and the doc comment docNoCmd carries no @Command yet
its exclusion is logged (the error is ErrMultipleResults, not
ErrMissingCommand), so the exclusion is not silent. -/
theorem c10_result_silent_cex :
    SrcParser.parseFunction docBad ("main".data) [] =
      Except.error (SrcParser.FnErr.other ("invalid @Parameter annotation".data)) ∧
    (SrcParser.parseFnLoop ("main".data) [] SrcParser.initPP [some docNoCmd]).logs =
      [SrcParser.FnErr.multipleResults] := by
  exact ⟨rfl, rfl⟩

/-- Claim C10 as amended: when the annotation lines all scan without error,
more than one @Result line makes parseFunction fail with the error wrapping
ErrMultipleResults, and the ParseProject function loop logs the error and
excludes the function while continuing; a function whose parse fails with
ErrMissingCommand — in particular one whose lines scan cleanly with no
@Command and no @Result — is excluded silently, with no log entry. -/
theorem c10_error_filtering
    (doc1 doc2 doc3 : List GoStr) (st1 st3 : SrcParser.ScanState)
    (pkg : GoStr) (aliases : AliasTable) (pst : SrcParser.PPState)
    (rest : List (Option (List GoStr)))
    (h1 : SrcParser.scanLines doc1 SrcParser.initScan = Except.ok st1)
    (h2 : st1.resultLines.length > 1)
    (h3 : SrcParser.parseFunction doc2 pkg aliases = Except.error SrcParser.FnErr.missingCommand)
    (h4 : SrcParser.scanLines doc3 SrcParser.initScan = Except.ok st3)
    (h5 : st3.command = [])
    (h6 : st3.resultLines = [])
    (h7 : pst.projectInfoSet = true) :
    SrcParser.parseFunction doc1 pkg aliases = Except.error SrcParser.FnErr.multipleResults ∧
    SrcParser.parseFnLoop pkg aliases pst (some doc1 :: rest) =
      SrcParser.parseFnLoop pkg aliases
        { pst with logs := pst.logs ++ [SrcParser.FnErr.multipleResults] } rest ∧
    SrcParser.parseFnLoop pkg aliases pst (some doc2 :: rest) =
      SrcParser.parseFnLoop pkg aliases pst rest ∧
    SrcParser.parseFunction doc3 pkg aliases = Except.error SrcParser.FnErr.missingCommand := by
  have hpf1 : SrcParser.parseFunction doc1 pkg aliases =
      Except.error SrcParser.FnErr.multipleResults := by
    simp only [SrcParser.parseFunction, h1]
    rw [if_pos h2]
  have hpf3 : SrcParser.parseFunction doc3 pkg aliases =
      Except.error SrcParser.FnErr.missingCommand := by
    simp only [SrcParser.parseFunction, h4, h6]
    simp [h5]
  refine ⟨hpf1, ?_, ?_, hpf3⟩
  · simp only [SrcParser.parseFnLoop, hpf1]
    simp [h7]
  · simp only [SrcParser.parseFnLoop, h3]
    simp [h7]

theorem c10_error_filtering_w :
    SrcParser.parseFunction docNoCmd ("main".data) [] =
      Except.error SrcParser.FnErr.multipleResults ∧
    SrcParser.parseFnLoop ("main".data) [] { projectInfoSet := true } (some docNoCmd :: []) =
      SrcParser.parseFnLoop ("main".data) []
        { projectInfoSet := true, logs := [SrcParser.FnErr.multipleResults] } [] ∧
    SrcParser.parseFnLoop ("main".data) [] { projectInfoSet := true } (some docDescOnly :: []) =
      SrcParser.parseFnLoop ("main".data) [] { projectInfoSet := true } [] ∧
    SrcParser.parseFunction docDescOnly ("main".data) [] =
      Except.error SrcParser.FnErr.missingCommand :=
  c10_error_filtering docNoCmd docDescOnly docDescOnly
    ⟨[], [], [], [], [("@Result int a".data), ("@Result int b".data)]⟩
    ⟨[], ("d".data), [], [], []⟩
    ("main".data) [] { projectInfoSet := true } []
    rfl (by decide) rfl rfl rfl rfl rfl
